import Mathlib

/-!
Verification development for the `realms-tx-tracker` pipeline.

The definitions below are a shallow embedding of the TypeScript sources:
`src/constants.ts`, `src/services/transaction-parser.ts`, the Solana
connection service (`withRetry`, `fetchSignaturesForAddress`,
`fetchTransaction`, `fetchTransactionsBatch`), `src/index.ts`
(`mergeSignatures` and the main analysis loop) and the csv-generator's
`calculateResults`.  JavaScript numbers holding lamport amounts are
modelled as `Nat`/`Int`; JavaScript strings as Lean `String` (log lines
are scanned at the `List Char` level, mirroring `String.prototype.includes`
and the regex search used by the source); a base64-encoded instruction-data
string is modelled by the byte list that `Buffer.from(data, 'base64')`
decodes it to (Node's base64 decoder is total, so the `catch` branch of
`getInstructionDiscriminator` is dead code).
-/

namespace RealmsTracker

/-! ## Constants (src/constants.ts) -/

def GOVERNANCE_PROGRAM_ID : String := "GovER5Lthms3bLBqWub97yVrMmEogzX7xNjdXpPPCVZw"

def GOVERNANCE_CHAT_PROGRAM_ID : String := "gCHAtYKrUUktTVzE4hEnZdLV4LXrdBf6Hh9qMaJALET"

def MAX_SIGNATURES_PER_FETCH : Nat := 1000

def MAX_CONCURRENT_REQUESTS : Nat := 10

structure RetryConfig where
  maxRetries : Nat
  baseDelayMs : Nat
  maxDelayMs : Nat
  deriving Repr, DecidableEq

def RETRY_CONFIG : RetryConfig := { maxRetries := 3, baseDelayMs := 1000, maxDelayMs := 10000 }

/-- The `TransactionType` enum of `src/types.ts` (full 12-value revision,
the one the current transaction parser uses). -/
inductive TransactionType where
  | VOTE
  | PROPOSAL
  | COMMENT
  | TOKEN_DEPOSIT
  | TOKEN_WITHDRAWAL
  | DELEGATE
  | EXECUTE
  | SIGNATORY
  | PROPOSAL_INSTRUCTION
  | GOVERNANCE_ADMIN
  | REFUND
  | OTHER_GOVERNANCE
  deriving Repr, DecidableEq

/-- `GOVERNANCE_INSTRUCTION_MAP` of `src/constants.ts`: the 29 mapped
governance instruction discriminators (0 .. 28). -/
def GOVERNANCE_INSTRUCTION_MAP (d : Nat) : Option String :=
  match d with
  | 0 => some "Governance Admin"
  | 4 => some "Governance Admin"
  | 5 => some "Governance Admin"
  | 17 => some "Governance Admin"
  | 18 => some "Governance Admin"
  | 19 => some "Governance Admin"
  | 20 => some "Governance Admin"
  | 21 => some "Governance Admin"
  | 22 => some "Governance Admin"
  | 24 => some "Governance Admin"
  | 25 => some "Governance Admin"
  | 26 => some "Governance Admin"
  | 1 => some "Token Deposit"
  | 23 => some "Token Deposit"
  | 2 => some "Token Withdrawal"
  | 3 => some "Delegate"
  | 6 => some "Proposal"
  | 11 => some "Proposal"
  | 12 => some "Proposal"
  | 14 => some "Proposal"
  | 28 => some "Proposal"
  | 7 => some "Signatory"
  | 8 => some "Signatory"
  | 9 => some "Proposal Instruction"
  | 10 => some "Proposal Instruction"
  | 13 => some "Vote"
  | 15 => some "Vote"
  | 16 => some "Execute Transaction"
  | 27 => some "Refund"
  | _ => none

/-! ## Data model

`ParsedTransactionWithMeta` as the parser consumes it.  An account key is
modelled by its pubkey string (the source accepts both a plain string and a
`ParsedMessageAccount`, and reduces both to the pubkey string).  An
instruction's `data` is either a base64 string — modelled by its decoded
byte list — or a pre-parsed object — modelled by the list of its field
names.  The `programId` of a top-level instruction missing the field is
treated as `""` by the source; inner instructions missing it are skipped,
so the field is an `Option`. -/

inductive InstrData where
  | str (bytes : List Nat)
  | obj (fields : List String)
  deriving Repr, DecidableEq

structure Instr where
  programId : Option String
  data : Option InstrData
  deriving Repr, DecidableEq

structure TxMeta where
  fee : Nat
  preBalances : List Nat
  postBalances : List Nat
  logMessages : List String
  innerInstructions : List (List Instr)
  deriving Repr, DecidableEq

structure ParsedTx where
  slot : Nat
  blockTime : Option Nat
  meta : Option TxMeta
  accountKeys : List String
  instructions : List Instr
  deriving Repr, DecidableEq

/-- `TrackedTransaction` of `src/types.ts`.  The derived `dateTime` display
string (`formatTimestamp(blockTime)`) is omitted: it is a formatting of
`blockTime` consumed only by the report renderer and no claim concerns it. -/
structure TrackedTx where
  signature : String
  blockTime : Nat
  slot : Nat
  transactionType : TransactionType
  transactionFee : Nat
  rentCost : Int
  totalCost : Int
  deriving Repr, DecidableEq

/-! ## Transaction classifier (src/services/transaction-parser.ts) -/

/-- `stringToTransactionType` of the parser. -/
def stringToTransactionType (typeString : String) : TransactionType :=
  match typeString with
  | "Vote" => .VOTE
  | "Proposal" => .PROPOSAL
  | "Comment" => .COMMENT
  | "Token Deposit" => .TOKEN_DEPOSIT
  | "Token Withdrawal" => .TOKEN_WITHDRAWAL
  | "Delegate" => .DELEGATE
  | "Execute Transaction" => .EXECUTE
  | "Governance Admin" => .GOVERNANCE_ADMIN
  | "Signatory" => .SIGNATORY
  | "Proposal Instruction" => .PROPOSAL_INSTRUCTION
  | "Refund" => .REFUND
  | _ => .OTHER_GOVERNANCE

/-- `getTransactionTypeFromDiscriminator` of the parser.  (All strings in
`GOVERNANCE_INSTRUCTION_MAP` are nonempty, so the source's truthiness test
`if (typeString)` is a `some`-test.) -/
def getTransactionTypeFromDiscriminator (discriminator : Nat) (programId : String) :
    Option TransactionType :=
  if programId = GOVERNANCE_CHAT_PROGRAM_ID then
    some .COMMENT
  else if programId = GOVERNANCE_PROGRAM_ID then
    match GOVERNANCE_INSTRUCTION_MAP discriminator with
    | some typeString => some (stringToTransactionType typeString)
    | none => some .OTHER_GOVERNANCE
  else
    none

/-- `isGovernanceProgram` of the parser. -/
def isGovernanceProgram (programId : String) : Bool :=
  programId = GOVERNANCE_PROGRAM_ID || programId = GOVERNANCE_CHAT_PROGRAM_ID

/-- `mapLogInstructionToType` of the parser.  Its argument is the capture of
`\w+`, which contains no whitespace, so the source's `trim()` is the
identity on every string this is applied to. -/
def mapLogInstructionToType (instructionName : String) : TransactionType :=
  match instructionName with
  | "CastVote" => .VOTE
  | "RelinquishVote" => .VOTE
  | "CreateProposal" => .PROPOSAL
  | "SignOffProposal" => .PROPOSAL
  | "CancelProposal" => .PROPOSAL
  | "FinalizeVote" => .PROPOSAL
  | "CompleteProposal" => .PROPOSAL
  | "DepositGoverningTokens" => .TOKEN_DEPOSIT
  | "CreateTokenOwnerRecord" => .TOKEN_DEPOSIT
  | "WithdrawGoverningTokens" => .TOKEN_WITHDRAWAL
  | "SetGovernanceDelegate" => .DELEGATE
  | "ExecuteTransaction" => .EXECUTE
  | "AddSignatory" => .SIGNATORY
  | "RemoveSignatory" => .SIGNATORY
  | "InsertTransaction" => .PROPOSAL_INSTRUCTION
  | "RemoveTransaction" => .PROPOSAL_INSTRUCTION
  | "CreateRealm" => .GOVERNANCE_ADMIN
  | "CreateGovernance" => .GOVERNANCE_ADMIN
  | "CreateProgramGovernance" => .GOVERNANCE_ADMIN
  | "CreateMintGovernance" => .GOVERNANCE_ADMIN
  | "CreateTokenGovernance" => .GOVERNANCE_ADMIN
  | "SetGovernanceConfig" => .GOVERNANCE_ADMIN
  | "FlagTransactionError" => .GOVERNANCE_ADMIN
  | "SetRealmAuthority" => .GOVERNANCE_ADMIN
  | "SetRealmConfig" => .GOVERNANCE_ADMIN
  | "UpdateProgramMetadata" => .GOVERNANCE_ADMIN
  | "CreateNativeTreasury" => .GOVERNANCE_ADMIN
  | "RevokeGoverningTokens" => .GOVERNANCE_ADMIN
  | "RefundProposalDeposit" => .REFUND
  | _ => .OTHER_GOVERNANCE

/-! ### Log-line scanning

`String.prototype.includes` and the regex search
`/GOVERNANCE-INSTRUCTION:\s*(\w+)/` of `getInstructionTypeFromLogs`,
implemented at the character level.  JS `\w` is `[A-Za-z0-9_]`, and since
`\s` and `\w` are disjoint, the greedy `\s*` followed by `\w+` needs no
backtracking: at the first position where the literal marker matches and is
followed by optional whitespace and at least one word character, the capture
is the maximal word-character run there. -/

def isWordChar (c : Char) : Bool := c.isAlphanum || c = '_'

/-- Substring containment, as `String.prototype.includes`. -/
def hasSubstr (pat : List Char) : List Char → Bool
  | [] => pat.isEmpty
  | c :: t => pat.isPrefixOf (c :: t) || hasSubstr pat t

def govMarker : List Char := "GOVERNANCE-INSTRUCTION:".toList

/-- Try to match `GOVERNANCE-INSTRUCTION:\s*(\w+)` at the head of `s`,
returning the capture. -/
def matchGovAt (s : List Char) : Option (List Char) :=
  if govMarker.isPrefixOf s then
    let rest := (s.drop govMarker.length).dropWhile Char.isWhitespace
    let w := rest.takeWhile isWordChar
    if w.isEmpty then none else some w
  else
    none

/-- Regex search: first position at which the pattern matches. -/
def searchGov : List Char → Option (List Char)
  | [] => none
  | c :: t =>
    match matchGovAt (c :: t) with
    | some w => some w
    | none => searchGov t

/-- The first `for` loop body of `getInstructionTypeFromLogs`: a log line
yields a type when it contains the marker and the regex finds a capture;
otherwise the scan moves to the next line. -/
def logLineType (log : String) : Option TransactionType :=
  if hasSubstr govMarker log.toList then
    match searchGov log.toList with
    | some w => some (mapLogInstructionToType (String.mk w))
    | none => none
  else
    none

/-- The second `for` loop body: a log line that mentions the chat program
and `invoke` yields `COMMENT`. -/
def chatInvokeLine (log : String) : Option TransactionType :=
  if hasSubstr GOVERNANCE_CHAT_PROGRAM_ID.toList log.toList &&
      hasSubstr "invoke".toList log.toList then
    some .COMMENT
  else
    none

/-- `getInstructionTypeFromLogs` of the parser: scan all log lines for a
governance-instruction log, then scan them again for a chat-program
invocation. -/
def getInstructionTypeFromLogs (tx : ParsedTx) : Option TransactionType :=
  let logs := (tx.meta.map TxMeta.logMessages).getD []
  match logs.findSome? logLineType with
  | some t => some t
  | none => logs.findSome? chatInvokeLine

/-- `getInstructionDiscriminator` of the parser, on the decoded byte list of
the data string: the first byte when the decoding is nonempty. -/
def getInstructionDiscriminator (bytes : List Nat) : Option Nat :=
  bytes.head?

/-- The parsed-object field-name checks, shared verbatim between the
top-level and the inner-instruction branch of `determineTransactionType`. -/
def classifyParsedFields (fields : List String) : TransactionType :=
  if "vote" ∈ fields || "castVote" ∈ fields || "relinquishVote" ∈ fields then
    .VOTE
  else if "proposal" ∈ fields || "createProposal" ∈ fields || "cancelProposal" ∈ fields ||
      "signOffProposal" ∈ fields || "finalizeVote" ∈ fields || "completeProposal" ∈ fields then
    .PROPOSAL
  else if "depositGoverningTokens" ∈ fields || "createTokenOwnerRecord" ∈ fields then
    .TOKEN_DEPOSIT
  else if "withdrawGoverningTokens" ∈ fields then
    .TOKEN_WITHDRAWAL
  else if "setGovernanceDelegate" ∈ fields then
    .DELEGATE
  else if "executeTransaction" ∈ fields then
    .EXECUTE
  else if "addSignatory" ∈ fields || "removeSignatory" ∈ fields then
    .SIGNATORY
  else if "insertTransaction" ∈ fields || "removeTransaction" ∈ fields then
    .PROPOSAL_INSTRUCTION
  else if "refundProposalDeposit" ∈ fields then
    .REFUND
  else if "createRealm" ∈ fields || "createGovernance" ∈ fields ||
      "setGovernanceConfig" ∈ fields || "setRealmAuthority" ∈ fields ||
      "setRealmConfig" ∈ fields || "createNativeTreasury" ∈ fields then
    .GOVERNANCE_ADMIN
  else
    .OTHER_GOVERNANCE

/-- One iteration of the top-level instruction loop of
`determineTransactionType` (`none` = the loop continues). -/
def classifyTopLevel (ins : Instr) : Option TransactionType :=
  let programId := ins.programId.getD ""
  if !isGovernanceProgram programId then
    none
  else
    match ins.data with
    | some (.str bytes) =>
      match getInstructionDiscriminator bytes with
      | some discriminator =>
        match getTransactionTypeFromDiscriminator discriminator programId with
        | some txType => some txType
        | none => if programId = GOVERNANCE_CHAT_PROGRAM_ID then some .COMMENT else none
      | none => if programId = GOVERNANCE_CHAT_PROGRAM_ID then some .COMMENT else none
    | some (.obj fields) => some (classifyParsedFields fields)
    | none => if programId = GOVERNANCE_CHAT_PROGRAM_ID then some .COMMENT else none

/-- One iteration of the inner-instruction (CPI) loop of
`determineTransactionType`.  An instruction without a `programId` field is
skipped; for the chat program any instruction is a comment; for the
governance program a present, truthy `data` is decoded (an empty data
string, being falsy, is skipped — it is covered by the empty byte list). -/
def classifyInner (ix : Instr) : Option TransactionType :=
  match ix.programId with
  | none => none
  | some programId =>
    if programId = GOVERNANCE_CHAT_PROGRAM_ID then
      some .COMMENT
    else if programId = GOVERNANCE_PROGRAM_ID then
      match ix.data with
      | some (.str bytes) =>
        match getInstructionDiscriminator bytes with
        | some discriminator => getTransactionTypeFromDiscriminator discriminator programId
        | none => none
      | some (.obj fields) => some (classifyParsedFields fields)
      | none => none
    else
      none

/-- `determineTransactionType` of the parser: log tier first, then the
top-level instruction loop, then the inner-instruction sweep. -/
def determineTransactionType (tx : ParsedTx) : Option TransactionType :=
  match getInstructionTypeFromLogs tx with
  | some logBasedType => some logBasedType
  | none =>
    match tx.instructions.findSome? classifyTopLevel with
    | some t => some t
    | none =>
      let inners := (tx.meta.map TxMeta.innerInstructions).getD []
      inners.findSome? (fun inner => inner.findSome? classifyInner)

/-- `calculateRentCost` of the parser.  `preBalances[i] || 0` is the list
lookup with default `0` (a present balance of `0` coincides with the
default). -/
def calculateRentCost (tx : ParsedTx) (walletAddress : String) : Int :=
  match tx.meta with
  | none => 0
  | some meta =>
    match tx.accountKeys.findIdx? (fun k => k = walletAddress) with
    | none => 0
    | some walletIndex =>
      let preBal : Int := (meta.preBalances.getD walletIndex 0 : Nat)
      let postBal : Int := (meta.postBalances.getD walletIndex 0 : Nat)
      let balanceChange := preBal - postBal
      max 0 (balanceChange - (meta.fee : Int))

/-- `getFeePayer` of the parser: the first account key's pubkey string. -/
def getFeePayer (tx : ParsedTx) : Option String :=
  tx.accountKeys.head?

/-- `parseTransaction` of the parser. -/
def parseTransaction (signature : String) (tx? : Option ParsedTx)
    (walletAddress : String) (blockTime : Nat) : Option TrackedTx :=
  match tx? with
  | none => none
  | some tx =>
    match tx.meta with
    | none => none
    | some meta =>
      match getFeePayer tx with
      | none => none
      | some feePayer =>
        if feePayer ≠ walletAddress then
          none
        else
          match determineTransactionType tx with
          | none => none
          | some transactionType =>
            let transactionFee := meta.fee
            let rentCost := calculateRentCost tx walletAddress
            let totalCost : Int := (transactionFee : Int) + rentCost
            some { signature := signature
                   blockTime := blockTime
                   slot := tx.slot
                   transactionType := transactionType
                   transactionFee := transactionFee
                   rentCost := rentCost
                   totalCost := totalCost }

/-! ## Retry wrapper (connection service)

`withRetry` is modelled with an explicit event trace: the operation is a
function from the attempt index to that invocation's outcome, and the trace
records each `throttle()` acquisition, each invocation, and each backoff
`sleep`.  `calculateBackoff` is the source formula. -/

def calculateBackoff (attempt : Nat) : Nat :=
  min (RETRY_CONFIG.baseDelayMs * 2 ^ attempt) RETRY_CONFIG.maxDelayMs

inductive RpcEvent where
  | throttle
  | invoke (attempt : Nat)
  | sleep (ms : Nat)
  deriving Repr, DecidableEq

/-- The final error of `withRetry` after exhausting retries
(`` `${operationName} failed after ${maxRetries} retries: ${lastError?.message}` ``). -/
def retryExhaustedMsg (operationName : String) (lastErrMsg : String) : String :=
  operationName ++ " failed after " ++ toString RETRY_CONFIG.maxRetries ++ " retries: " ++ lastErrMsg

/-- The retry loop of `withRetry`, from attempt `i` with `rem` loop
iterations left (`i + rem = maxRetries + 1` at every call) and the message
of the last error seen (`none` before the first attempt; the source would
interpolate `undefined`). -/
def withRetryAux {α : Type} (op : Nat → Except String α) (operationName : String) :
    Nat → Nat → Option String → List RpcEvent × Except String α
  | _, 0, lastErr =>
    ([], .error (retryExhaustedMsg operationName (lastErr.getD "undefined")))
  | i, rem + 1, _ =>
    match op i with
    | .ok v => ([.throttle, .invoke i], .ok v)
    | .error e =>
      let next := withRetryAux op operationName (i + 1) rem (some e)
      let tail := if rem = 0 then next.1 else .sleep (calculateBackoff i) :: next.1
      (.throttle :: .invoke i :: tail, next.2)

/-- `withRetry` of the connection service. -/
def withRetry {α : Type} (op : Nat → Except String α) (operationName : String) :
    List RpcEvent × Except String α :=
  withRetryAux op operationName 0 (RETRY_CONFIG.maxRetries + 1) none

/-! ## Transaction fetching (connection service)

The transport is a function from a signature and an attempt index to that
RPC round trip's outcome: an error, or the transaction (`none` when the
ledger has no record for the signature). -/

/-- `fetchTransaction`: `withRetry` around `getParsedTransaction`, with the
source's operation name `` `getTransaction(${signature.slice(0, 8)}...)` ``. -/
def fetchTransaction (transport : String → Nat → Except String (Option ParsedTx))
    (signature : String) : List RpcEvent × Except String (Option ParsedTx) :=
  withRetry (transport signature) ("getTransaction(" ++ signature.take 8 ++ "...)")

/-- One wave of up to `concurrencyLimit` fetches.  `Promise.all` resolves
with the results in batch order, or rejects with a rejecting promise's
reason (modelled as the first in batch order); sibling failures are not
caught anywhere in `fetchTransactionsBatch`. -/
def settleWave (transport : String → Nat → Except String (Option ParsedTx)) :
    List String → Except String (List (String × Option ParsedTx))
  | [] => .ok []
  | sig :: rest =>
    match (fetchTransaction transport sig).2 with
    | .error e => .error e
    | .ok tx =>
      match settleWave transport rest with
      | .error e => .error e
      | .ok txs => .ok ((sig, tx) :: txs)

/-- `fetchTransactionsBatch`: sequential waves of `concurrencyLimit`
signatures.  The results `Map` is modelled as an association list in
insertion order (the callers pass deduplicated signature lists).  The
source's `for` loop does not terminate when `concurrencyLimit = 0`; the
model is stated for waves of at least one signature, which is every actual
call (`MAX_CONCURRENT_REQUESTS = 10`). -/
def fetchTransactionsBatch (transport : String → Nat → Except String (Option ParsedTx))
    (concurrencyLimit : Nat) :
    List String → Except String (List (String × Option ParsedTx))
  | [] => .ok []
  | sig :: rest =>
    let wave := sig :: rest.take (concurrencyLimit - 1)
    let remaining := rest.drop (concurrencyLimit - 1)
    match settleWave transport wave with
    | .error e => .error e
    | .ok waveResults =>
      match fetchTransactionsBatch transport concurrencyLimit remaining with
      | .error e => .error e
      | .ok restResults => .ok (waveResults ++ restResults)
  termination_by sigs => sigs.length
  decreasing_by
    simp only [List.length_drop, List.length_cons]
    omega

/-! ## Signature discovery (connection service) -/

/-- `ConfirmedSignatureInfo` as the pipeline consumes it.  `err` is the
truthiness of `sig.err` (`null` is falsy). -/
structure SigInfo where
  signature : String
  slot : Nat
  err : Bool
  blockTime : Option Nat
  deriving Repr, DecidableEq

/-- The per-entry loop of `fetchSignaturesForAddress` over one page:
returns the kept entries and whether `reachedStartDate` was set.  The
source's `if (!blockTime)` skips both a missing and a `0` block time (JS
falsiness). -/
def processPage (startTimestamp endTimestamp : Nat) : List SigInfo → List SigInfo × Bool
  | [] => ([], false)
  | sig :: rest =>
    match sig.blockTime with
    | none => processPage startTimestamp endTimestamp rest
    | some blockTime =>
      if blockTime = 0 then
        processPage startTimestamp endTimestamp rest
      else if blockTime > endTimestamp then
        processPage startTimestamp endTimestamp rest
      else if blockTime < startTimestamp then
        ([], true)
      else if sig.err then
        processPage startTimestamp endTimestamp rest
      else
        let res := processPage startTimestamp endTimestamp rest
        (sig :: res.1, res.2)

/-- `fetchSignaturesForAddress`, with the transport abstracted to the
sequence of pages its successive (cursor-driven) `getSignaturesForAddress`
calls return.  The scan breaks on an empty page, on `reachedStartDate`, or
on a page shorter than `limit` (`MAX_SIGNATURES_PER_FETCH`); exhausting the
supplied pages corresponds to the transport returning an empty page next. -/
def fetchSignaturesForAddress (startTimestamp endTimestamp limit : Nat) :
    List (List SigInfo) → List SigInfo
  | [] => []
  | page :: restPages =>
    if page.isEmpty then
      []
    else
      let res := processPage startTimestamp endTimestamp page
      if res.2 then
        res.1
      else if page.length < limit then
        res.1
      else
        res.1 ++ fetchSignaturesForAddress startTimestamp endTimestamp limit restPages

/-! ## Merging (src/index.ts) -/

/-- The `Map`-based deduplication loop of `mergeSignatures`: keep an entry
when its signature has not been seen yet. -/
def dedupBySig : List SigInfo → List String → List SigInfo
  | [], _ => []
  | sig :: rest, seen =>
    if sig.signature ∈ seen then
      dedupBySig rest seen
    else
      sig :: dedupBySig rest (sig.signature :: seen)

/-- The sort key: `a.blockTime || 0` (a missing block time sorts as `0`). -/
def sigSortKey (s : SigInfo) : Nat := s.blockTime.getD 0

/-- `mergeSignatures` of `src/index.ts`: first occurrence wins, then a
stable sort by block time descending (`(a, b) => timeB - timeA`; JS
`Array.prototype.sort` is stable, as is `List.mergeSort`). -/
def mergeSignatures (signatureArrays : List (List SigInfo)) : List SigInfo :=
  (dedupBySig signatureArrays.flatten []).mergeSort
    (fun a b => sigSortKey b ≤ sigSortKey a)

/-! ## Result aggregation (csv-generator, full-category revision) -/

structure CategorySummary where
  count : Nat
  totalFees : Int
  deriving Repr, DecidableEq

structure TrackingResults where
  transactions : List TrackedTx
  votes : CategorySummary
  proposals : CategorySummary
  comments : CategorySummary
  tokenDeposits : CategorySummary
  tokenWithdrawals : CategorySummary
  delegates : CategorySummary
  executes : CategorySummary
  signatories : CategorySummary
  proposalInstructions : CategorySummary
  governanceAdmin : CategorySummary
  refunds : CategorySummary
  otherGovernance : CategorySummary
  totalCount : Nat
  totalFees : Int
  deriving Repr, DecidableEq

/-- `sumFees`: `txs.reduce((sum, tx) => sum + tx.totalCost, 0)`. -/
def sumFees (txs : List TrackedTx) : Int :=
  txs.foldl (fun sum tx => sum + tx.totalCost) 0

/-- `filterByType` of `calculateResults`. -/
def filterByType (transactions : List TrackedTx) (type : TransactionType) : List TrackedTx :=
  transactions.filter (fun tx => tx.transactionType = type)

/-- `createSummary` of `calculateResults`. -/
def createSummary (transactions : List TrackedTx) (type : TransactionType) : CategorySummary :=
  let txs := filterByType transactions type
  { count := txs.length, totalFees := sumFees txs }

/-- `calculateResults` (the full-category revision of the csv-generator,
which builds one summary per `TransactionType`; a superseded revision in
the tree summarizes only votes, proposals and comments). -/
def calculateResults (transactions : List TrackedTx) : TrackingResults :=
  { transactions := transactions
    votes := createSummary transactions .VOTE
    proposals := createSummary transactions .PROPOSAL
    comments := createSummary transactions .COMMENT
    tokenDeposits := createSummary transactions .TOKEN_DEPOSIT
    tokenWithdrawals := createSummary transactions .TOKEN_WITHDRAWAL
    delegates := createSummary transactions .DELEGATE
    executes := createSummary transactions .EXECUTE
    signatories := createSummary transactions .SIGNATORY
    proposalInstructions := createSummary transactions .PROPOSAL_INSTRUCTION
    governanceAdmin := createSummary transactions .GOVERNANCE_ADMIN
    refunds := createSummary transactions .REFUND
    otherGovernance := createSummary transactions .OTHER_GOVERNANCE
    totalCount := transactions.length
    totalFees := sumFees transactions }

/-! ## The analysis loop of `main` (src/index.ts, step 6) -/

/-- `sigInfo?.blockTime || tx?.blockTime || 0`: the first truthy (present
and nonzero) block time, else `0`. -/
def effectiveBlockTime (sigInfo : Option SigInfo) (tx? : Option ParsedTx) : Nat :=
  match sigInfo.bind SigInfo.blockTime with
  | some bt =>
    if bt ≠ 0 then bt
    else
      match tx?.bind ParsedTx.blockTime with
      | some bt2 => if bt2 ≠ 0 then bt2 else 0
      | none => 0
  | none =>
    match tx?.bind ParsedTx.blockTime with
    | some bt2 => if bt2 ≠ 0 then bt2 else 0
    | none => 0

/-- The transaction-analysis loop of `main`: for each fetched entry, look
the signature up in the merged signature list, resolve the block time,
silently skip the entry when it is `0`, else hand it to
`parseTransaction` and collect the tracked transactions. -/
def processTransactions (signatures : List SigInfo) (walletAddress : String) :
    List (String × Option ParsedTx) → List TrackedTx
  | [] => []
  | (signature, tx?) :: rest =>
    let sigInfo := signatures.find? (fun s => s.signature = signature)
    let blockTime := effectiveBlockTime sigInfo tx?
    if blockTime = 0 then
      processTransactions signatures walletAddress rest
    else
      match parseTransaction signature tx? walletAddress blockTime with
      | some tracked => tracked :: processTransactions signatures walletAddress rest
      | none => processTransactions signatures walletAddress rest

/-! ## Claims -/

/-- C8: `calculateRentCost` returns `0` when the wallet is absent from the
account keys, and otherwise `max(0, (preBalance[idx] - postBalance[idx]) - fee)`
at the wallet's index `idx`; in all cases the result is non-negative. -/
theorem claim_C8 (tx : ParsedTx) (wallet : String) :
    (0 : Int) ≤ calculateRentCost tx wallet ∧
    (wallet ∉ tx.accountKeys → calculateRentCost tx wallet = 0) ∧
    (∀ meta idx, tx.meta = some meta →
      tx.accountKeys.findIdx? (fun k => k = wallet) = some idx →
      calculateRentCost tx wallet =
        max 0 (((meta.preBalances.getD idx 0 : Int) - (meta.postBalances.getD idx 0 : Int)) -
          (meta.fee : Int))) := by
  refine ⟨?_, ?_, ?_⟩
  · rcases hm : tx.meta with _ | meta
    · simp [calculateRentCost, hm]
    · rcases hi : tx.accountKeys.findIdx? (fun k => k = wallet) with _ | idx
      · simp [calculateRentCost, hm, hi]
      · simp only [calculateRentCost, hm, hi]
        exact le_max_left _ _
  · intro habs
    have hnone : tx.accountKeys.findIdx? (fun k => k = wallet) = none := by
      rw [List.findIdx?_eq_none_iff]
      intro x hx
      by_cases hxw : x = wallet
      · exact absurd (hxw ▸ hx) habs
      · simp [hxw]
    rcases hm : tx.meta with _ | meta
    · simp [calculateRentCost, hm]
    · simp [calculateRentCost, hm, hnone]
  · intro meta idx hm hi
    simp [calculateRentCost, hm, hi]

def txC8 : ParsedTx :=
  { slot := 7, blockTime := some 1700000000,
    meta := some { fee := 5000, preBalances := [9, 10000], postBalances := [9, 3000],
                   logMessages := [], innerInstructions := [] },
    accountKeys := ["F", "W"],
    instructions := [] }

/-- Witness for C8 at a concrete transaction: the wallet sits at index 1,
paid balance delta `7000` of which `5000` is the fee, so the rent deposit
is `2000`; and the result is non-negative. -/
theorem claim_C8_witness :
    calculateRentCost txC8 "W" = 2000 ∧ (0 : Int) ≤ calculateRentCost txC8 "W" := by
  refine ⟨?_, (claim_C8 txC8 "W").1⟩
  have h := (claim_C8 txC8 "W").2.2
    { fee := 5000, preBalances := [9, 10000], postBalances := [9, 3000],
      logMessages := [], innerInstructions := [] } 1 rfl (by decide)
  rw [h]
  decide

/-- C3: `parseTransaction` accepts a transaction only when the configured
wallet is the first account key (the fee payer); a transaction whose keys
contain the wallet elsewhere is rejected, whatever its instructions. -/
theorem claim_C3 (signature : String) (tx? : Option ParsedTx) (wallet : String)
    (blockTime : Nat) :
    (∀ r, parseTransaction signature tx? wallet blockTime = some r →
      ∃ tx, tx? = some tx ∧ getFeePayer tx = some wallet) ∧
    (∀ tx, tx? = some tx → wallet ∈ tx.accountKeys →
      getFeePayer tx ≠ some wallet →
      parseTransaction signature tx? wallet blockTime = none) := by
  constructor
  · intro r h
    rcases tx? with _ | tx
    · simp [parseTransaction] at h
    · refine ⟨tx, rfl, ?_⟩
      rcases hm : tx.meta with _ | meta
      · simp [parseTransaction, hm] at h
      · rcases hf : getFeePayer tx with _ | fp
        · simp [parseTransaction, hm, hf] at h
        · by_cases hfp : fp = wallet
          · rw [hfp]
          · simp [parseTransaction, hm, hf, hfp] at h
  · intro tx htx hmem hne
    subst htx
    rcases hm : tx.meta with _ | meta
    · simp [parseTransaction, hm]
    · rcases hf : getFeePayer tx with _ | fp
      · simp [parseTransaction, hm, hf]
      · have hfp : fp ≠ wallet := by
          intro heq
          exact hne (by rw [hf, heq])
        simp [parseTransaction, hm, hf, hfp]

def txC3 : ParsedTx :=
  { slot := 3, blockTime := some 1700000100,
    meta := some { fee := 5000, preBalances := [10, 10], postBalances := [10, 10],
                   logMessages := ["Program log: GOVERNANCE-INSTRUCTION: CastVote"],
                   innerInstructions := [] },
    accountKeys := ["Other", "W"],
    instructions := [{ programId := some GOVERNANCE_PROGRAM_ID, data := some (.str [13]) }] }

/-- Witness for C3 at a concrete transaction: the tracked wallet `"W"` is
present among the account keys but only second, and the transaction would
classify as a governance vote — it is still rejected. -/
theorem claim_C3_witness :
    parseTransaction "sig3" (some txC3) "W" 1700000100 = none :=
  (claim_C3 "sig3" (some txC3) "W" 1700000100).2 txC3 rfl (by decide) (by decide)

/-- C4: when the log tier extracts an instruction type, that type is the
classifier's answer, whatever the instruction lists say — replacing the
instructions (e.g. by ones whose discriminator maps elsewhere) cannot
change the result. -/
theorem claim_C4 (tx : ParsedTx) (t : TransactionType)
    (h : getInstructionTypeFromLogs tx = some t) :
    determineTransactionType tx = some t ∧
    ∀ instrs, determineTransactionType { tx with instructions := instrs } = some t := by
  constructor
  · simp [determineTransactionType, h]
  · intro instrs
    have h' : getInstructionTypeFromLogs { tx with instructions := instrs } = some t := h
    simp [determineTransactionType, h']

def txC4 : ParsedTx :=
  { slot := 4, blockTime := some 1700000200,
    meta := some { fee := 5000, preBalances := [], postBalances := [],
                   logMessages := ["Program log: GOVERNANCE-INSTRUCTION: CastVote"],
                   innerInstructions := [] },
    accountKeys := ["W"],
    instructions := [{ programId := some GOVERNANCE_PROGRAM_ID, data := some (.str [6]) }] }

/-- Witness for C4: a transaction logging `CastVote` while carrying a
top-level instruction whose discriminator `6` maps to `PROPOSAL` still
classifies as `VOTE` — the log tier wins. -/
theorem claim_C4_witness :
    determineTransactionType txC4 = some .VOTE ∧
    getTransactionTypeFromDiscriminator 6 GOVERNANCE_PROGRAM_ID = some .PROPOSAL :=
  ⟨(claim_C4 txC4 .VOTE (by decide)).1, by decide⟩

/-! ### C9: the retry wrapper -/

def isInvokeEvent : RpcEvent → Bool
  | .invoke _ => true
  | _ => false

/-- Every `invoke` event in a trace comes right after a `throttle` event. -/
def attemptsThrottled : List RpcEvent → Bool
  | [] => true
  | .invoke _ :: _ => false
  | .throttle :: .invoke _ :: rest => attemptsThrottled rest
  | _ :: rest => attemptsThrottled rest

theorem withRetryAux_countP {α : Type} (op : Nat → Except String α) (name : String) :
    ∀ rem i lastErr, ((withRetryAux op name i rem lastErr).1.countP isInvokeEvent) ≤ rem := by
  intro rem
  induction rem with
  | zero => intro i lastErr; simp [withRetryAux, List.countP_nil]
  | succ n ih =>
    intro i lastErr
    cases hop : op i with
    | ok v => simp [withRetryAux, hop, List.countP_cons, List.countP_nil, isInvokeEvent]
    | error e =>
      by_cases hn : n = 0 <;>
        simp [withRetryAux, hop, hn, List.countP_cons, List.countP_nil, isInvokeEvent] <;>
        have := ih (i + 1) (some e) <;> omega

theorem withRetryAux_throttled {α : Type} (op : Nat → Except String α) (name : String) :
    ∀ rem i lastErr, attemptsThrottled (withRetryAux op name i rem lastErr).1 = true := by
  intro rem
  induction rem with
  | zero => intro i lastErr; simp [withRetryAux, attemptsThrottled]
  | succ n ih =>
    intro i lastErr
    cases hop : op i with
    | ok v => simp [withRetryAux, hop, attemptsThrottled]
    | error e =>
      by_cases hn : n = 0 <;>
        simp [withRetryAux, hop, hn, attemptsThrottled, ih (i + 1) (some e)]

/-- C9: `withRetry` invokes the operation at most `maxRetries + 1` times,
acquires the rate-limiter throttle immediately before every invocation,
sleeps `min(baseDelayMs * 2^i, maxDelayMs)` after failed attempt `i`
before the next attempt, and after exhausting every attempt fails with an
error naming the operation and carrying the last underlying error's
message. -/
theorem claim_C9 {α : Type} (op : Nat → Except String α) (name : String) :
    (withRetry op name).1.countP isInvokeEvent ≤ RETRY_CONFIG.maxRetries + 1 ∧
    attemptsThrottled (withRetry op name).1 = true ∧
    (∀ e0 e1 e2 e3, op 0 = .error e0 → op 1 = .error e1 → op 2 = .error e2 →
      op 3 = .error e3 →
      withRetry op name =
        ([.throttle, .invoke 0, .sleep (min (RETRY_CONFIG.baseDelayMs * 2 ^ 0) RETRY_CONFIG.maxDelayMs),
          .throttle, .invoke 1, .sleep (min (RETRY_CONFIG.baseDelayMs * 2 ^ 1) RETRY_CONFIG.maxDelayMs),
          .throttle, .invoke 2, .sleep (min (RETRY_CONFIG.baseDelayMs * 2 ^ 2) RETRY_CONFIG.maxDelayMs),
          .throttle, .invoke 3],
         .error (name ++ " failed after " ++ toString RETRY_CONFIG.maxRetries ++ " retries: " ++ e3))) := by
  refine ⟨withRetryAux_countP op name _ 0 none, withRetryAux_throttled op name _ 0 none, ?_⟩
  intro e0 e1 e2 e3 h0 h1 h2 h3
  simp [withRetry, withRetryAux, h0, h1, h2, h3, RETRY_CONFIG, calculateBackoff,
    retryExhaustedMsg]

/-- Witness for C9 at a concrete always-failing operation: the trace shows
four throttled attempts with backoffs 1000, 2000, 4000 ms, and the final
error names the operation and the last error. -/
theorem claim_C9_witness :
    withRetry (fun _ => (Except.error "boom" : Except String Nat)) "getTx" =
      ([.throttle, .invoke 0, .sleep 1000,
        .throttle, .invoke 1, .sleep 2000,
        .throttle, .invoke 2, .sleep 4000,
        .throttle, .invoke 3],
       .error "getTx failed after 3 retries: boom") := by
  have h := (claim_C9 (fun _ => (Except.error "boom" : Except String Nat)) "getTx").2.2
    "boom" "boom" "boom" "boom" rfl rfl rfl rfl
  rw [h]
  rfl

/-! ### C2: aggregation -/

theorem foldl_add_totalCost (l : List TrackedTx) :
    ∀ a : Int, l.foldl (fun sum tx => sum + tx.totalCost) a = a + (l.map TrackedTx.totalCost).sum := by
  induction l with
  | nil => simp
  | cons x t ih => intro a; simp [List.foldl_cons, ih, List.sum_cons]; ring

theorem sumFees_eq_sum (l : List TrackedTx) :
    sumFees l = (l.map TrackedTx.totalCost).sum := by
  simpa [sumFees] using foldl_add_totalCost l 0

theorem count_partition (l : List TrackedTx) :
    (filterByType l .VOTE).length + (filterByType l .PROPOSAL).length +
    (filterByType l .COMMENT).length + (filterByType l .TOKEN_DEPOSIT).length +
    (filterByType l .TOKEN_WITHDRAWAL).length + (filterByType l .DELEGATE).length +
    (filterByType l .EXECUTE).length + (filterByType l .SIGNATORY).length +
    (filterByType l .PROPOSAL_INSTRUCTION).length + (filterByType l .GOVERNANCE_ADMIN).length +
    (filterByType l .REFUND).length + (filterByType l .OTHER_GOVERNANCE).length = l.length := by
  induction l with
  | nil => simp [filterByType]
  | cons x t ih =>
    cases hx : x.transactionType <;>
      simp [filterByType, List.filter_cons, hx] <;>
      simp [filterByType] at ih <;> omega

theorem fees_partition (l : List TrackedTx) :
    ((filterByType l .VOTE).map TrackedTx.totalCost).sum +
    ((filterByType l .PROPOSAL).map TrackedTx.totalCost).sum +
    ((filterByType l .COMMENT).map TrackedTx.totalCost).sum +
    ((filterByType l .TOKEN_DEPOSIT).map TrackedTx.totalCost).sum +
    ((filterByType l .TOKEN_WITHDRAWAL).map TrackedTx.totalCost).sum +
    ((filterByType l .DELEGATE).map TrackedTx.totalCost).sum +
    ((filterByType l .EXECUTE).map TrackedTx.totalCost).sum +
    ((filterByType l .SIGNATORY).map TrackedTx.totalCost).sum +
    ((filterByType l .PROPOSAL_INSTRUCTION).map TrackedTx.totalCost).sum +
    ((filterByType l .GOVERNANCE_ADMIN).map TrackedTx.totalCost).sum +
    ((filterByType l .REFUND).map TrackedTx.totalCost).sum +
    ((filterByType l .OTHER_GOVERNANCE).map TrackedTx.totalCost).sum =
    (l.map TrackedTx.totalCost).sum := by
  induction l with
  | nil => simp [filterByType]
  | cons x t ih =>
    cases hx : x.transactionType <;>
      simp [filterByType, List.filter_cons, hx] <;>
      simp [filterByType] at ih <;> omega

/-- C2: in `calculateResults` the per-category counts sum to `totalCount`,
the per-category `totalFees` sum to the grand `totalFees`, and each
category summary counts exactly the transactions of that category and sums
their `totalCost`. -/
theorem claim_C2 (transactions : List TrackedTx) :
    ((calculateResults transactions).votes.count +
     (calculateResults transactions).proposals.count +
     (calculateResults transactions).comments.count +
     (calculateResults transactions).tokenDeposits.count +
     (calculateResults transactions).tokenWithdrawals.count +
     (calculateResults transactions).delegates.count +
     (calculateResults transactions).executes.count +
     (calculateResults transactions).signatories.count +
     (calculateResults transactions).proposalInstructions.count +
     (calculateResults transactions).governanceAdmin.count +
     (calculateResults transactions).refunds.count +
     (calculateResults transactions).otherGovernance.count =
       (calculateResults transactions).totalCount) ∧
    ((calculateResults transactions).votes.totalFees +
     (calculateResults transactions).proposals.totalFees +
     (calculateResults transactions).comments.totalFees +
     (calculateResults transactions).tokenDeposits.totalFees +
     (calculateResults transactions).tokenWithdrawals.totalFees +
     (calculateResults transactions).delegates.totalFees +
     (calculateResults transactions).executes.totalFees +
     (calculateResults transactions).signatories.totalFees +
     (calculateResults transactions).proposalInstructions.totalFees +
     (calculateResults transactions).governanceAdmin.totalFees +
     (calculateResults transactions).refunds.totalFees +
     (calculateResults transactions).otherGovernance.totalFees =
       (calculateResults transactions).totalFees) ∧
    (∀ type, createSummary transactions type =
      { count := (transactions.filter fun tx => tx.transactionType = type).length,
        totalFees :=
          ((transactions.filter fun tx => tx.transactionType = type).map
            TrackedTx.totalCost).sum }) := by
  refine ⟨?_, ?_, ?_⟩
  · simpa [calculateResults, createSummary] using count_partition transactions
  · have h := fees_partition transactions
    simpa [calculateResults, createSummary, sumFees_eq_sum] using h
  · intro type
    simp [createSummary, filterByType, sumFees_eq_sum]

/-! ### C5: unknown-but-governance fallback, and the exact rejection condition -/

/-- C5: a governance-program instruction whose first payload byte is none of
the 29 mapped discriminators (once the log tier found nothing and no earlier
top-level instruction classified) makes the classifier return
`OTHER_GOVERNANCE` rather than reject; and rejection (`none`) happens
exactly when no tier matched anything: the log tier found nothing, no
top-level instruction matched the governance or chat program, and no inner
instruction did. -/
theorem claim_C5 (tx : ParsedTx) :
    (∀ pre b bs,
      getInstructionTypeFromLogs tx = none →
      tx.instructions =
        pre ++ [{ programId := some GOVERNANCE_PROGRAM_ID, data := some (.str (b :: bs)) }] →
      (∀ i ∈ pre, classifyTopLevel i = none) →
      GOVERNANCE_INSTRUCTION_MAP b = none →
      determineTransactionType tx = some .OTHER_GOVERNANCE) ∧
    (determineTransactionType tx = none ↔
      (getInstructionTypeFromLogs tx = none ∧
       (∀ i ∈ tx.instructions, classifyTopLevel i = none) ∧
       (∀ inner ∈ (tx.meta.map TxMeta.innerInstructions).getD [], ∀ ix ∈ inner,
         classifyInner ix = none))) := by
  constructor
  · intro pre b bs hlog hins hpre hmap
    have hpre' : pre.findSome? classifyTopLevel = none :=
      List.findSome?_eq_none_iff.mpr hpre
    have hlast : classifyTopLevel
        { programId := some GOVERNANCE_PROGRAM_ID, data := some (.str (b :: bs)) } =
        some .OTHER_GOVERNANCE := by
      simp [classifyTopLevel, isGovernanceProgram, getInstructionDiscriminator,
        getTransactionTypeFromDiscriminator, hmap,
        show GOVERNANCE_PROGRAM_ID ≠ GOVERNANCE_CHAT_PROGRAM_ID from by decide]
    simp [determineTransactionType, hlog, hins, List.findSome?_append, hpre', hlast]
  · constructor
    · intro h
      cases hlog : getInstructionTypeFromLogs tx with
      | some t => simp [determineTransactionType, hlog] at h
      | none =>
        cases htop : tx.instructions.findSome? classifyTopLevel with
        | some t => simp [determineTransactionType, hlog, htop] at h
        | none =>
          refine ⟨rfl, List.findSome?_eq_none_iff.mp htop, ?_⟩
          simp [determineTransactionType, hlog, htop] at h
          exact h
    · rintro ⟨hlog, htop, hinner⟩
      have htop' : tx.instructions.findSome? classifyTopLevel = none :=
        List.findSome?_eq_none_iff.mpr htop
      have hin' : ((tx.meta.map TxMeta.innerInstructions).getD []).findSome?
          (fun inner => inner.findSome? classifyInner) = none :=
        List.findSome?_eq_none_iff.mpr
          (fun inner hin => List.findSome?_eq_none_iff.mpr (hinner inner hin))
      simp [determineTransactionType, hlog, htop', hin']

def txC5 : ParsedTx :=
  { slot := 5, blockTime := some 1700000300,
    meta := some { fee := 5000, preBalances := [], postBalances := [],
                   logMessages := ["Program log: something unrelated"],
                   innerInstructions := [] },
    accountKeys := ["W"],
    instructions := [{ programId := some GOVERNANCE_PROGRAM_ID, data := some (.str [200]) }] }

/-- Witness for C5: a transaction whose only instruction invokes the
governance program with the unmapped discriminator `200` classifies as
`OTHER_GOVERNANCE`. -/
theorem claim_C5_witness :
    determineTransactionType txC5 = some .OTHER_GOVERNANCE :=
  (claim_C5 txC5).1 [] 200 [] (by decide) rfl (by simp) rfl

/-! ### C7: signature merging -/

theorem dedupBySig_countP (s : String) :
    ∀ (l : List SigInfo) (seen : List String),
      (dedupBySig l seen).countP (fun x => x.signature = s) =
        if s ∈ seen then 0 else if l.any (fun x => x.signature = s) then 1 else 0 := by
  intro l
  induction l with
  | nil => intro seen; by_cases hs : s ∈ seen <;> simp [dedupBySig, hs]
  | cons sig rest ih =>
    intro seen
    by_cases hseen : sig.signature ∈ seen
    · by_cases hs : s ∈ seen
      · simp [dedupBySig, hseen, hs, ih, List.any_cons]
      · have hne : ¬(sig.signature = s) := fun h => hs (h ▸ hseen)
        simp [dedupBySig, hseen, hs, ih, List.any_cons, hne]
    · by_cases heq : sig.signature = s
      · have hs : s ∉ seen := fun h => hseen (heq ▸ h)
        have h0 : List.countP (fun x => decide (x.signature = s)) (dedupBySig rest (s :: seen)) = 0 := by
          rw [ih (s :: seen)]
          simp
        simp [dedupBySig, hseen, List.countP_cons, heq, hs, h0, List.any_cons]
      · by_cases hs : s ∈ seen
        · have hs' : s ∈ sig.signature :: seen := List.mem_cons_of_mem _ hs
          simp [dedupBySig, hseen, List.countP_cons, heq, hs, hs', ih]
        · have hs' : s ∉ sig.signature :: seen := by
            intro h
            rcases List.mem_cons.mp h with h | h
            · exact heq h.symm
            · exact hs h
          simp [dedupBySig, hseen, List.countP_cons, heq, hs, hs', ih, List.any_cons]

theorem dedupBySig_mem_find (rec : SigInfo) :
    ∀ (l : List SigInfo) (seen : List String),
      rec ∈ dedupBySig l seen →
      rec.signature ∉ seen ∧ l.find? (fun x => x.signature = rec.signature) = some rec := by
  intro l
  induction l with
  | nil => intro seen h; simp [dedupBySig] at h
  | cons sig rest ih =>
    intro seen h
    by_cases hseen : sig.signature ∈ seen
    · simp only [dedupBySig, if_pos hseen] at h
      obtain ⟨h1, h2⟩ := ih seen h
      have hne : ¬(sig.signature = rec.signature) := fun he => h1 (he ▸ hseen)
      exact ⟨h1, by simp [List.find?_cons, hne, h2]⟩
    · simp only [dedupBySig, if_neg hseen, List.mem_cons] at h
      rcases h with h | h
      · subst h
        exact ⟨hseen, by simp [List.find?_cons]⟩
      · obtain ⟨h1, h2⟩ := ih _ h
        have hs : rec.signature ∉ seen := fun hx => h1 (List.mem_cons_of_mem _ hx)
        have hne : ¬(sig.signature = rec.signature) := fun he => h1 (he ▸ List.mem_cons_self _ _)
        exact ⟨hs, by simp [List.find?_cons, hne, h2]⟩

/-- C7: `mergeSignatures` returns each distinct signature of the union
exactly once, keeping the record of its first occurrence (in array-then-
position order), sorted by block time descending with a missing block time
sorting as `0`. -/
theorem claim_C7 (signatureArrays : List (List SigInfo)) :
    (∀ s : String,
      (mergeSignatures signatureArrays).countP (fun x => x.signature = s) =
        if signatureArrays.flatten.any (fun x => x.signature = s) then 1 else 0) ∧
    (∀ rec ∈ mergeSignatures signatureArrays,
      signatureArrays.flatten.find? (fun x => x.signature = rec.signature) = some rec) ∧
    List.Pairwise (fun a b => sigSortKey b ≤ sigSortKey a) (mergeSignatures signatureArrays) := by
  have hperm : (mergeSignatures signatureArrays).Perm
      (dedupBySig signatureArrays.flatten []) := List.mergeSort_perm _ _
  refine ⟨?_, ?_, ?_⟩
  · intro s
    rw [hperm.countP_eq]
    simpa using dedupBySig_countP s signatureArrays.flatten []
  · intro rec hrec
    exact (dedupBySig_mem_find rec signatureArrays.flatten [] (hperm.mem_iff.mp hrec)).2
  · have hsorted := @List.sorted_mergeSort SigInfo
      (fun a b : SigInfo => decide (sigSortKey b ≤ sigSortKey a))
      (fun a b c hab hbc => by
        simp only [decide_eq_true_eq] at *
        exact le_trans hbc hab)
      (fun a b => by
        rcases Nat.le_total (sigSortKey a) (sigSortKey b) with h | h <;> simp [h])
      (dedupBySig signatureArrays.flatten [])
    exact hsorted.imp (fun h => by simpa using h)

def sigA : SigInfo := { signature := "a", slot := 1, err := false, blockTime := some 5 }
def sigB : SigInfo := { signature := "b", slot := 2, err := false, blockTime := none }
def sigA2 : SigInfo := { signature := "a", slot := 3, err := false, blockTime := some 99 }
def sigC : SigInfo := { signature := "c", slot := 4, err := false, blockTime := some 7 }

/-- Witness for C7: two of the four concrete records share the signature
`"a"`; the merge keeps exactly one, namely the first occurrence. -/
theorem claim_C7_witness :
    (mergeSignatures [[sigA, sigB], [sigA2, sigC]]).countP (fun x => x.signature = "a") = 1 ∧
    [[sigA, sigB], [sigA2, sigC]].flatten.find? (fun x => x.signature = sigA.signature) =
      some sigA := by
  constructor
  · rw [(claim_C7 [[sigA, sigB], [sigA2, sigC]]).1 "a"]
    decide
  · exact (claim_C7 [[sigA, sigB], [sigA2, sigC]]).2.1 sigA
      ((List.mergeSort_perm _ _).mem_iff.mpr (by decide))

/-! ### C10: block-time gating of the analysis loop -/

/-- A tracked transaction carries exactly the block time it was parsed
with. -/
theorem parseTransaction_blockTime (signature : String) (tx? : Option ParsedTx)
    (wallet : String) (bt : Nat) (tr : TrackedTx)
    (h : parseTransaction signature tx? wallet bt = some tr) : tr.blockTime = bt := by
  rcases tx? with _ | tx
  · simp [parseTransaction] at h
  · rcases hm : tx.meta with _ | meta
    · simp [parseTransaction, hm] at h
    · rcases hf : getFeePayer tx with _ | fp
      · simp [parseTransaction, hm, hf] at h
      · by_cases hfp : fp = wallet
        · rcases hd : determineTransactionType tx with _ | ty
          · simp [parseTransaction, hm, hf, hfp, hd] at h
          · simp [parseTransaction, hm, hf, hfp, hd] at h
            rw [← h]
        · simp [parseTransaction, hm, hf, hfp] at h

/-- C10: every tracked transaction the analysis loop emits has a strictly
positive block time; an entry whose block time is missing or zero both in
its signature record and in its transaction body is skipped before
classification. -/
theorem claim_C10 (signatures : List SigInfo) (walletAddress : String)
    (entries : List (String × Option ParsedTx)) :
    (∀ tr ∈ processTransactions signatures walletAddress entries, 0 < tr.blockTime) ∧
    (∀ signature tx? rest,
      ((signatures.find? (fun s => s.signature = signature)).bind SigInfo.blockTime = none ∨
       (signatures.find? (fun s => s.signature = signature)).bind SigInfo.blockTime = some 0) →
      (tx?.bind ParsedTx.blockTime = none ∨ tx?.bind ParsedTx.blockTime = some 0) →
      processTransactions signatures walletAddress ((signature, tx?) :: rest) =
        processTransactions signatures walletAddress rest) := by
  constructor
  · induction entries with
    | nil => intro tr htr; simp [processTransactions] at htr
    | cons e rest ih =>
      intro tr htr
      obtain ⟨signature, tx?⟩ := e
      by_cases hbt :
          effectiveBlockTime (signatures.find? fun s => s.signature = signature) tx? = 0
      · rw [processTransactions, if_pos hbt] at htr
        exact ih tr htr
      · rw [processTransactions, if_neg hbt] at htr
        rcases hp : parseTransaction signature tx? walletAddress
            (effectiveBlockTime (signatures.find? fun s => s.signature = signature) tx?)
          with _ | tr'
        · rw [hp] at htr
          exact ih tr htr
        · rw [hp] at htr
          rcases List.mem_cons.mp htr with h | h
          · subst h
            have := parseTransaction_blockTime _ _ _ _ _ hp
            omega
          · exact ih tr h
  · intro signature tx? rest h1 h2
    have hbt : effectiveBlockTime (signatures.find? fun s => s.signature = signature) tx? = 0 := by
      unfold effectiveBlockTime
      rcases h1 with h1 | h1 <;> rcases h2 with h2 | h2 <;> simp [h1, h2]
    rw [processTransactions, if_pos hbt]

def txC10 : ParsedTx :=
  { slot := 9, blockTime := some 1700000400,
    meta := some { fee := 5000, preBalances := [10], postBalances := [10],
                   logMessages := [], innerInstructions := [] },
    accountKeys := ["W"],
    instructions := [{ programId := some GOVERNANCE_PROGRAM_ID, data := some (.str [13]) }] }

def txC10zero : ParsedTx :=
  { slot := 9, blockTime := some 0,
    meta := some { fee := 5000, preBalances := [10], postBalances := [10],
                   logMessages := [], innerInstructions := [] },
    accountKeys := ["W"],
    instructions := [{ programId := some GOVERNANCE_PROGRAM_ID, data := some (.str [13]) }] }

/-- Witness for C10: a concrete governance vote with block time
`1700000400` is emitted (with that positive block time), while an entry
whose signature record is absent and whose body carries block time `0` is
dropped. -/
theorem claim_C10_witness :
    (0 < (⟨"s1", 1700000400, 9, .VOTE, 5000, 0, 5000⟩ : TrackedTx).blockTime) ∧
    processTransactions [] "W" [("z", some txC10zero)] = processTransactions [] "W" [] :=
  ⟨(claim_C10 [] "W" [("s1", some txC10)]).1 ⟨"s1", 1700000400, 9, .VOTE, 5000, 0, 5000⟩
      (by decide),
   (claim_C10 [] "W" []).2 "z" (some txC10zero) [] (Or.inl rfl) (Or.inr rfl)⟩

/-! ### C6: the signature scan window -/

/-- The pages the pagination loop actually consumes: up to and including
the first page shorter than `limit`; an empty page ends the loop
contributing nothing. -/
def pagesScanned (limit : Nat) : List (List SigInfo) → List (List SigInfo)
  | [] => []
  | page :: rest =>
    if page.isEmpty then []
    else if page.length < limit then [page]
    else page :: pagesScanned limit rest

/-- Stated from C6's words: "the scan stops entirely at the first entry
with blockTime strictly below start". -/
def stopsScanClaim (startTimestamp : Nat) (entry : SigInfo) : Bool :=
  match entry.blockTime with
  | some bt => bt < startTimestamp
  | none => false

/-- Stated from C6's words: kept entries are exactly those with non-null
blockTime, no error, and `start <= blockTime <= end`. -/
def keptEntryClaim (startTimestamp endTimestamp : Nat) (entry : SigInfo) : Bool :=
  match entry.blockTime with
  | some bt => startTimestamp ≤ bt && bt ≤ endTimestamp && !entry.err
  | none => false

/-- `fetchSignaturesForAddress` as claim C6 describes it. -/
def fetchSignaturesClaimC6 (startTimestamp endTimestamp limit : Nat)
    (pages : List (List SigInfo)) : List SigInfo :=
  ((pagesScanned limit pages).flatten.takeWhile
    (fun entry => !stopsScanClaim startTimestamp entry)).filter
    (keptEntryClaim startTimestamp endTimestamp)

/-- The stop condition the source actually implements: only a present,
NONZERO blockTime `<= end` and `< start` stops the scan — `if (!blockTime)`
treats a zero blockTime as missing and skips the entry without stopping,
and an entry newer than the window is skipped before the stop check. -/
def stopsScan (startTimestamp endTimestamp : Nat) (entry : SigInfo) : Bool :=
  match entry.blockTime with
  | some bt => bt ≠ 0 && bt ≤ endTimestamp && bt < startTimestamp
  | none => false

/-- The keep condition the source implements: present nonzero blockTime in
`[start, end]` and no error. -/
def keptEntry (startTimestamp endTimestamp : Nat) (entry : SigInfo) : Bool :=
  match entry.blockTime with
  | some bt => bt ≠ 0 && bt ≤ endTimestamp && startTimestamp ≤ bt && !entry.err
  | none => false

theorem processPage_eq (st et : Nat) (page : List SigInfo) :
    processPage st et page =
      ((page.takeWhile fun x => !stopsScan st et x).filter (keptEntry st et),
       page.any (stopsScan st et)) := by
  induction page with
  | nil => simp [processPage]
  | cons x rest ih =>
    rcases hbt : x.blockTime with _ | bt
    · simp [processPage, hbt, stopsScan, keptEntry, List.takeWhile_cons, List.filter_cons,
        List.any_cons, ih]
    · by_cases h0 : bt = 0
      · simp [processPage, hbt, h0, stopsScan, keptEntry, List.takeWhile_cons, List.filter_cons,
          List.any_cons, ih]
      · by_cases hend : bt > et
        · have h1 : ¬(bt ≤ et) := by omega
          simp [processPage, hbt, h0, hend, h1, stopsScan, keptEntry, List.takeWhile_cons,
            List.filter_cons, List.any_cons, ih]
        · by_cases hstart : bt < st
          · have h1 : bt ≤ et := by omega
            simp [processPage, hbt, h0, hend, hstart, h1, stopsScan, keptEntry,
              List.takeWhile_cons, List.filter_cons, List.any_cons]
          · by_cases herr : x.err
            · have h1 : bt ≤ et := by omega
              have h2 : st ≤ bt := by omega
              simp [processPage, hbt, h0, hend, hstart, herr, h1, h2, stopsScan, keptEntry,
                List.takeWhile_cons, List.filter_cons, List.any_cons, ih]
            · have h1 : bt ≤ et := by omega
              have h2 : st ≤ bt := by omega
              simp [processPage, hbt, h0, hend, hstart, herr, h1, h2, stopsScan, keptEntry,
                List.takeWhile_cons, List.filter_cons, List.any_cons, ih]

theorem takeWhile_append_all {α : Type} (p : α → Bool) (xs ys : List α)
    (h : ∀ x ∈ xs, p x = true) :
    (xs ++ ys).takeWhile p = xs ++ ys.takeWhile p := by
  induction xs with
  | nil => simp
  | cons x t ih =>
    have hx := h x (List.mem_cons_self _ _)
    simp [List.takeWhile_cons, hx]
    exact ih (fun y hy => h y (List.mem_cons_of_mem _ hy))

theorem takeWhile_append_stop {α : Type} (p : α → Bool) (xs ys : List α)
    (h : xs.any (fun x => !p x) = true) :
    (xs ++ ys).takeWhile p = xs.takeWhile p := by
  induction xs with
  | nil => simp at h
  | cons x t ih =>
    cases hp : p x with
    | false => simp [List.takeWhile_cons, hp]
    | true =>
      have ht : t.any (fun x => !p x) = true := by
        simp [List.any_cons, hp] at h
        simpa using h
      simp [List.takeWhile_cons, hp, ih ht]

/-- C6 (amended): `fetchSignaturesForAddress` returns, in page order, the
entries of the scanned pages before the first stopping entry that have a
present nonzero blockTime within `[start, end]` and no error, where only an
entry with nonzero `blockTime <= end` strictly below `start` stops the
scan (an entry with missing — or zero — blockTime is skipped without
stopping, as is one newer than `end`). -/
theorem claim_C6_amended (startTimestamp endTimestamp limit : Nat)
    (pages : List (List SigInfo)) :
    fetchSignaturesForAddress startTimestamp endTimestamp limit pages =
      ((pagesScanned limit pages).flatten.takeWhile
        (fun entry => !stopsScan startTimestamp endTimestamp entry)).filter
        (keptEntry startTimestamp endTimestamp) := by
  induction pages with
  | nil => simp [fetchSignaturesForAddress, pagesScanned]
  | cons page rest ih =>
    by_cases hemp : page.isEmpty
    · simp [fetchSignaturesForAddress, pagesScanned, hemp]
    · by_cases hre : page.any (stopsScan startTimestamp endTimestamp) = true
      · by_cases hshort : page.length < limit
        · simp [fetchSignaturesForAddress, pagesScanned, hemp, hshort, processPage_eq, hre]
        · have hstop := takeWhile_append_stop
            (fun entry => !stopsScan startTimestamp endTimestamp entry) page
            (pagesScanned limit rest).flatten (by simpa using hre)
          simp [fetchSignaturesForAddress, pagesScanned, hemp, hshort, processPage_eq, hre,
            hstop]
      · have hall : ∀ x ∈ page, (!stopsScan startTimestamp endTimestamp x) = true := by
          intro x hx
          have := (List.any_eq_false.mp (by simpa using hre)) x hx
          simp [this]
        by_cases hshort : page.length < limit
        · simp [fetchSignaturesForAddress, pagesScanned, hemp, hshort, processPage_eq, hre]
        · have happ := takeWhile_append_all
            (fun entry => !stopsScan startTimestamp endTimestamp entry) page
            (pagesScanned limit rest).flatten hall
          simp [fetchSignaturesForAddress, pagesScanned, hemp, hshort, processPage_eq, hre,
            happ, List.filter_append, ih, List.takeWhile_eq_self_iff.mpr hall]

def pagesC6 : List (List SigInfo) :=
  [[{ signature := "x", slot := 1, err := false, blockTime := some 0 },
    { signature := "y", slot := 2, err := false, blockTime := some 15 }]]

/-- Counterexample to C6 as stated: with window `[10, 20]`, a page whose
first entry has blockTime `0` (strictly below `start`) followed by an
in-window entry.  The claim's stop rule yields `[]`, but the source skips
the zero-blockTime entry as falsy and returns the in-window entry. -/
theorem claim_C6_counterexample :
    fetchSignaturesForAddress 10 20 MAX_SIGNATURES_PER_FETCH pagesC6 =
      [{ signature := "y", slot := 2, err := false, blockTime := some 15 }] ∧
    fetchSignaturesClaimC6 10 20 MAX_SIGNATURES_PER_FETCH pagesC6 = [] ∧
    fetchSignaturesForAddress 10 20 MAX_SIGNATURES_PER_FETCH pagesC6 ≠
      fetchSignaturesClaimC6 10 20 MAX_SIGNATURES_PER_FETCH pagesC6 := by
  refine ⟨by decide, by decide, by decide⟩

/-! ### C1: batch fetching and partial failure -/

instance {ε α : Type} [DecidableEq ε] [DecidableEq α] : DecidableEq (Except ε α) := fun a b =>
  match a, b with
  | .ok x, .ok y => decidable_of_iff (x = y) (by simp)
  | .error x, .error y => decidable_of_iff (x = y) (by simp)
  | .ok _, .error _ => isFalse (by simp)
  | .error _, .ok _ => isFalse (by simp)

/-- A wave whose fetches all resolve settles to the in-order list of
their results. -/
theorem settleWave_ok (transport : String → Nat → Except String (Option ParsedTx))
    (r : String → Option ParsedTx) :
    ∀ wave, (∀ s ∈ wave, (fetchTransaction transport s).2 = .ok (r s)) →
      settleWave transport wave = .ok (wave.map fun s => (s, r s)) := by
  intro wave
  induction wave with
  | nil => intro _; simp [settleWave]
  | cons sig rest ih =>
    intro h
    have hs := h sig (List.mem_cons_self _ _)
    have hr := ih (fun s hmem => h s (List.mem_cons_of_mem _ hmem))
    simp [settleWave, hs, hr]

/-- A wave that settled successfully had every fetch resolve. -/
theorem settleWave_ok_mem (transport : String → Nat → Except String (Option ParsedTx)) :
    ∀ wave l, settleWave transport wave = .ok l →
      ∀ s ∈ wave, ∃ v, (fetchTransaction transport s).2 = .ok v := by
  intro wave
  induction wave with
  | nil => intro l _ s hs; simp at hs
  | cons sig rest ih =>
    intro l hw s hs
    rcases hf : (fetchTransaction transport sig).2 with e | v
    · simp [settleWave, hf] at hw
    · rcases hrest : settleWave transport rest with e | l'
      · simp [settleWave, hf, hrest] at hw
      · rcases List.mem_cons.mp hs with h | h
        · exact ⟨v, h ▸ hf⟩
        · exact ih l' hrest s h

/-- When every signature's fetch resolves, the batch returns the full
in-order signature-to-transaction association. -/
theorem batch_ok_of_all (transport : String → Nat → Except String (Option ParsedTx))
    (concurrencyLimit : Nat) (r : String → Option ParsedTx) :
    ∀ n sigs, sigs.length ≤ n →
      (∀ s ∈ sigs, (fetchTransaction transport s).2 = .ok (r s)) →
      fetchTransactionsBatch transport concurrencyLimit sigs =
        .ok (sigs.map fun s => (s, r s)) := by
  intro n
  induction n with
  | zero =>
    intro sigs hlen _
    have : sigs = [] := List.eq_nil_of_length_eq_zero (Nat.le_zero.mp hlen)
    subst this
    simp [fetchTransactionsBatch]
  | succ n ih =>
    intro sigs hlen h
    rcases sigs with _ | ⟨sig, rest⟩
    · simp [fetchTransactionsBatch]
    · have hwave : ∀ s ∈ sig :: rest.take (concurrencyLimit - 1),
          (fetchTransaction transport s).2 = .ok (r s) := by
        intro s hs
        rcases List.mem_cons.mp hs with h' | h'
        · exact h s (h' ▸ List.mem_cons_self _ _)
        · exact h s (List.mem_cons_of_mem _ (List.take_subset _ _ h'))
      have hrem : (rest.drop (concurrencyLimit - 1)).length ≤ n := by
        simp only [List.length_drop]
        simp only [List.length_cons] at hlen
        omega
      have hremall : ∀ s ∈ rest.drop (concurrencyLimit - 1),
          (fetchTransaction transport s).2 = .ok (r s) :=
        fun s hs => h s (List.mem_cons_of_mem _ (List.drop_subset _ _ hs))
      rw [fetchTransactionsBatch, settleWave_ok transport r _ hwave, ih _ hrem hremall]
      dsimp only
      rw [← List.map_append]
      congr 1
      simp [List.take_append_drop]

/-- A batch that returned a map had every signature's fetch resolve: a
single retry-exhausted fetch makes the whole batch reject. -/
theorem batch_ok_all_settled (transport : String → Nat → Except String (Option ParsedTx))
    (concurrencyLimit : Nat) :
    ∀ n sigs m, sigs.length ≤ n →
      fetchTransactionsBatch transport concurrencyLimit sigs = .ok m →
      ∀ s ∈ sigs, ∃ v, (fetchTransaction transport s).2 = .ok v := by
  intro n
  induction n with
  | zero =>
    intro sigs m hlen _ s hs
    have : sigs = [] := List.eq_nil_of_length_eq_zero (Nat.le_zero.mp hlen)
    subst this
    simp at hs
  | succ n ih =>
    intro sigs m hlen hb s hs
    rcases sigs with _ | ⟨sig, rest⟩
    · simp at hs
    · rw [fetchTransactionsBatch] at hb
      rcases hw : settleWave transport (sig :: rest.take (concurrencyLimit - 1)) with e | wl
      · rw [hw] at hb; exact absurd hb (by simp)
      · rw [hw] at hb
        rcases hr : fetchTransactionsBatch transport concurrencyLimit
            (rest.drop (concurrencyLimit - 1)) with e | rl
        · rw [hr] at hb; exact absurd hb (by simp)
        · have hrem : (rest.drop (concurrencyLimit - 1)).length ≤ n := by
            simp only [List.length_drop]
            simp only [List.length_cons] at hlen
            omega
          rcases List.mem_cons.mp hs with h' | h'
          · exact settleWave_ok_mem transport _ wl hw s (h' ▸ List.mem_cons_self _ _)
          · rcases List.mem_append.mp ((List.take_append_drop (concurrencyLimit - 1) rest) ▸ h') with h2 | h2
            · exact settleWave_ok_mem transport _ wl hw s (List.mem_cons_of_mem _ h2)
            · exact ih _ rl hrem hr s h2

/-- C1 (amended): a fetch that resolves — including resolving to "no
transaction found" (`none`) — is recorded in the returned map and the rest
of the batch is processed; but a fetch that exhausts all retries is not
recorded as absent: its rejection propagates through `Promise.all` and
aborts the whole batch. -/
theorem claim_C1_amended (transport : String → Nat → Except String (Option ParsedTx))
    (concurrencyLimit : Nat) :
    (∀ sigs (r : String → Option ParsedTx),
      (∀ s ∈ sigs, (fetchTransaction transport s).2 = .ok (r s)) →
      fetchTransactionsBatch transport concurrencyLimit sigs =
        .ok (sigs.map fun s => (s, r s))) ∧
    (∀ sigs s e, s ∈ sigs → (fetchTransaction transport s).2 = .error e →
      ∀ m, fetchTransactionsBatch transport concurrencyLimit sigs ≠ .ok m) := by
  constructor
  · intro sigs r h
    exact batch_ok_of_all transport concurrencyLimit r sigs.length sigs le_rfl h
  · intro sigs s e hs he m hb
    obtain ⟨v, hv⟩ := batch_ok_all_settled transport concurrencyLimit sigs.length sigs m
      le_rfl hb s hs
    rw [he] at hv
    exact absurd hv (by simp)

def transportC1 : String → Nat → Except String (Option ParsedTx) :=
  fun sig _ => if sig = "alpha" then .error "boom" else .ok none

/-- Counterexample to C1 as stated: a transport on which signature
`"alpha"` fails every attempt while `"beta"` would succeed.  The claim says
the batch returns a map with `"alpha"` absent and `"beta"` processed; the
source instead propagates the retry-exhausted error and aborts the batch. -/
theorem claim_C1_counterexample :
    fetchTransactionsBatch transportC1 MAX_CONCURRENT_REQUESTS ["alpha", "beta"] =
      .error "getTransaction(alpha...) failed after 3 retries: boom" ∧
    fetchTransactionsBatch transportC1 MAX_CONCURRENT_REQUESTS ["alpha", "beta"] ≠
      .ok [("alpha", none), ("beta", none)] := by
  have h1 : settleWave transportC1 ("alpha" :: List.take (MAX_CONCURRENT_REQUESTS - 1) ["beta"]) =
      .error "getTransaction(alpha...) failed after 3 retries: boom" := by decide
  constructor
  · rw [fetchTransactionsBatch, h1]
  · rw [fetchTransactionsBatch, h1]
    simp

def transportC1ok : String → Nat → Except String (Option ParsedTx) :=
  fun sig _ => if sig = "present" then .ok (some txC10) else .ok none

/-- Witness for the amended C1: on an all-resolving transport, a signature
the ledger no longer has (`"gone"`, resolving to `none`) is recorded as
absent and the remaining signature is still processed. -/
theorem claim_C1_amended_witness :
    fetchTransactionsBatch transportC1ok MAX_CONCURRENT_REQUESTS ["gone", "present"] =
      .ok [("gone", none), ("present", some txC10)] := by
  have h := (claim_C1_amended transportC1ok MAX_CONCURRENT_REQUESTS).1 ["gone", "present"]
    (fun s => if s = "present" then some txC10 else none) (by decide)
  simpa using h

end RealmsTracker
